import Mathlib

/-!
Verification development for the telegram-to-signal bridge.

Shallow embedding of the repository's core components:
* `src/markdown_converter.py` — the style converter (`convert_telegram_markdown`,
  `get_utf16_length`);
* `src/core/queue_manager.py` — the dispatch router (`queue_or_create_group`,
  `get_signal_group_id`) and shared queue/buffer state;
* `src/telegram_to_signal.py` — the group-creation worker
  (`process_group_creation_queue` loop body) and the Telegram→Signal delivery
  pipeline (`process_message` file lifecycle);
* `src/core/signal_to_telegram.py` — `handle_signal_message` and the
  Signal→Telegram delivery pipeline (`process_telegram_send_queue` file
  lifecycle);
* `src/signal_listener.py` — the SSE listener reconnection loop
  (`SignalSSEListener.start`).

Strings are modelled as `List Char` where character-level reasoning matters
(the style converter), and as Lean `String` where they are opaque keys.
Python dicts become association lists, Python sets become lists of keys,
asyncio queues become FIFO lists (enqueue at the tail).
-/

/-! ### Style converter (`src/markdown_converter.py`) -/

/-- Embeds `get_utf16_length`: `len(s.encode('utf-16-le')) // 2`, i.e. each
code point below `0x10000` contributes one UTF-16 code unit and each code
point at or above `0x10000` contributes two (a surrogate pair). -/
def get_utf16_length : List Char → Nat
  | [] => 0
  | c :: t => (if c.toNat < 65536 then 1 else 2) + get_utf16_length t

/-- The five style kinds emitted by `convert_telegram_markdown` (the link
pattern re-uses `ITALIC`). -/
inductive Style where
  | BOLD
  | ITALIC
  | STRIKETHROUGH
  | SPOILER
  | MONOSPACE
deriving DecidableEq, Repr

/-- One entry of the `styles` list. The Python code serializes each entry as
the colon-joined string `"start:length:STYLE"`; the three components are kept
as a record here. -/
structure StyleRange where
  start : Nat
  length : Nat
  style : Style
deriving DecidableEq, Repr

/-- Scanner for the closing two-character delimiter of `**…**`, `__…__`,
`~~…~~`, `||…||`: finds the first occurrence of `[d, d]` in the input and
splits there, mirroring the non-greedy `([\s\S]+?)` followed by the closing
delimiter. Returns `(consumed-before-delimiter, rest-after-delimiter)`. -/
def scan2 (d : Char) : List Char → Option (List Char × List Char)
  | a :: b :: t =>
    if a = d ∧ b = d then some ([], t)
    else (scan2 d (b :: t)).map (fun p => (a :: p.1, p.2))
  | _ => none

/-- The non-greedy inner span of a two-character-delimited pattern: at least
one character, then the first occurrence of the closing delimiter. -/
def close2 (d : Char) : List Char → Option (List Char × List Char)
  | a :: t => (scan2 d t).map (fun p => (a :: p.1, p.2))
  | [] => none

/-- After the first delimiter character has been seen, require the second and
then find the non-greedy inner span and the text after the closing
delimiter. -/
def frame2 (d : Char) : List Char → Option (List Char × List Char)
  | c2 :: r => if c2 = d then close2 d r else none
  | [] => none

/-- Scanner for the closing single-character delimiter of `` `…` ``: first
occurrence of `d`. -/
def scan1 (d : Char) : List Char → Option (List Char × List Char)
  | a :: t =>
    if a = d then some ([], t)
    else (scan1 d t).map (fun p => (a :: p.1, p.2))
  | [] => none

/-- The non-greedy inner span of the monospace pattern: at least one
character, then the first closing backtick. -/
def close1 (d : Char) : List Char → Option (List Char × List Char)
  | a :: t => (scan1 d t).map (fun p => (a :: p.1, p.2))
  | [] => none

/-- The URL part `([^\)]+\)` of the link pattern: a greedy run of at least one
non-`)` character followed by `)`; returns the text after the `)`.
Greedy-then-backtrack over `[^\)]+` is equivalent to scanning to the first
`)`. -/
def urlAfter : List Char → Option (List Char)
  | [] => none
  | c :: t => if c = ')' then some t else urlAfter t

/-- `[^\)]+\)` with the leading at-least-one requirement: the first character
must not be `)`. -/
def urlRun : List Char → Option (List Char)
  | [] => none
  | c :: t => if c = ')' then none else urlAfter t

/-- The tail of the link pattern after the inner span: `\]\([^\)]+\)`. -/
def linkTail : List Char → Option (List Char)
  | ']' :: '(' :: t => urlRun t
  | _ => none

/-- Non-greedy search for the smallest split point at which `linkTail`
matches. -/
def scanLinkAux : List Char → Option (List Char × List Char)
  | [] => none
  | a :: t =>
    match linkTail (a :: t) with
    | some r => some ([], r)
    | none => (scanLinkAux t).map (fun p => (a :: p.1, p.2))

/-- The non-greedy inner span of `\[([\s\S]+?)\]\([^\)]+\)` after the opening
`[`: at least one character, then the first position where `\]\([^\)]+\)`
matches. -/
def closeLink : List Char → Option (List Char × List Char)
  | a :: t => (scanLinkAux t).map (fun p => (a :: p.1, p.2))
  | [] => none

/-- One attempt of the combined alternation
`(\*\*…\*\*)|(__…__)|(~~…~~)|(\|\|…\|\|)|(`…`)|(\[…\]\(…\))` at the current
position. The six patterns open with pairwise distinct characters
(`*`, `_`, `~`, `|`, `` ` ``, `[`), so trying the alternatives in pattern
order is a dispatch on the first character; the order below is the order of
the `patterns` list in the source, which also determines the style the code
recovers for the match via `re.fullmatch`. Returns
`(style, inner span, text after the match)`. -/
def matchAt : List Char → Option (Style × List Char × List Char)
  | [] => none
  | c :: t =>
    if c = '*' then (frame2 '*' t).map (fun p => (Style.BOLD, p.1, p.2))
    else if c = '_' then (frame2 '_' t).map (fun p => (Style.ITALIC, p.1, p.2))
    else if c = '~' then (frame2 '~' t).map (fun p => (Style.STRIKETHROUGH, p.1, p.2))
    else if c = '|' then (frame2 '|' t).map (fun p => (Style.SPOILER, p.1, p.2))
    else if c = '`' then (close1 '`' t).map (fun p => (Style.MONOSPACE, p.1, p.2))
    else if c = '[' then (closeLink t).map (fun p => (Style.ITALIC, p.1, p.2))
    else none

/-- The leftmost match of the combined pattern, as found by `re.finditer`:
try `matchAt` at each position from the left. Returns
`(literal text before the match, style, inner span, text after the match)`. -/
def findMatch : List Char → Option (List Char × Style × List Char × List Char)
  | [] => none
  | c :: t =>
    match matchAt (c :: t) with
    | some (st, i, r) => some ([], st, i, r)
    | none => (findMatch t).map (fun q => (c :: q.1, q.2))

/-- Fueled body of `convert_telegram_markdown`. Each `re.finditer` step
consumes the literal prefix and the matched span, recursively converts the
inner text, records the outer style at the UTF-16 offset of the output built
so far, re-bases the inner styles by that offset, and continues after the
match (the loop over the remaining matches is the recursive call on `rest`,
whose styles are re-based by the offset of the output produced so far).
A match always consumes at least two delimiter characters beyond its inner
span, so both recursive calls are on strictly shorter lists and fuel
`s.length` (see `convert_telegram_markdown`) never runs out. -/
def convertF : Nat → List Char → List Char × List StyleRange
  | 0, s => (s, [])
  | fuel + 1, s =>
    match findMatch s with
    | none => (s, [])
    | some (pre, st, inner, rest) =>
      let pi := convertF fuel inner
      let pr := convertF fuel rest
      let sp := get_utf16_length pre
      let il := get_utf16_length pi.1
      (pre ++ pi.1 ++ pr.1,
        ⟨sp, il, st⟩ ::
          (pi.2.map (fun q => ⟨sp + q.start, q.length, q.style⟩) ++
            pr.2.map (fun q => ⟨sp + il + q.start, q.length, q.style⟩)))

/-- Embeds `convert_telegram_markdown`: Telegram markdown → plain text plus
signal-cli text styles with UTF-16 positions over the output text. -/
def convert_telegram_markdown (s : List Char) : List Char × List StyleRange :=
  convertF s.length s

/-- The characters at which one of the six patterns can start. -/
def specialChar (c : Char) : Bool :=
  decide (c = '*' ∨ c = '_' ∨ c = '~' ∨ c = '|' ∨ c = '`' ∨ c = '[')

/-! ### Queue manager and provisioning state
(`src/core/queue_manager.py`, `src/telegram_to_signal.py`) -/

/-- Python truthiness of an optional string: `None` and `''` are falsy. -/
def pyTruthy : Option String → Bool
  | none => false
  | some s => s ≠ ""

/-- `dict.get` on an association list (first matching key wins; keys are
unique by construction through `alistSet`). -/
def alistGet {α : Type} (k : String) : List (String × α) → Option α
  | [] => none
  | (k', v) :: t => if k' = k then some v else alistGet k t

/-- `dict[k] = v`: replace the value at an existing key in place, otherwise
append the new key at the end (Python dicts preserve insertion order). -/
def alistSet {α : Type} (k : String) (v : α) : List (String × α) → List (String × α)
  | [] => [(k, v)]
  | (k', v') :: t => if k' = k then (k', v) :: t else (k', v') :: alistSet k v t

/-- `del dict[k]`: after it, the key is absent. Keys are unique in every
association list built through `alistSet`, so removing every binding of `k`
realizes the dict deletion on all modelled states. Identity when the key is
absent (the code guards its `del` with an `in` check where needed). -/
def alistDel {α : Type} (k : String) : List (String × α) → List (String × α)
  | [] => []
  | (k', v') :: t => if k' = k then alistDel k t else (k', v') :: alistDel k t

/-- `k in set`, for a Python set modelled as a list of keys. -/
def listHas (k : String) : List String → Bool
  | [] => false
  | a :: t => if a = k then true else listHas k t

/-- `set.discard(k)`: remove `k` from the set if present. -/
def setDiscard (k : String) : List String → List String
  | [] => []
  | a :: t => if a = k then setDiscard k t else a :: setDiscard k t

/-- The shared mutable module state of `queue_manager.py` and `config.py`,
specialized over the type of `to_send_queue` items (the code enqueues tuples
`('message', msg)` / `('album', event)`; their payload is opaque here).

* `chats` / `channels` — the two tables of the persisted config
  (`config.json`), mapping Telegram chat id to Signal group id;
* `to_send_queue` — the Telegram→Signal delivery queue (FIFO, tail = newest);
* `group_creation_queue` — pending provisioning requests `(chat_id,
  is_channel)`;
* `pending_messages` — dict from chat id to the ordered list of items
  buffered while that chat's Signal group is being created;
* `groups_being_created` — the set of chat ids with a provisioning request
  in flight;
* `saved_configs` — ghost log of `config.save_config()` calls, each entry the
  `(chats, channels)` snapshot written to disk. -/
structure BridgeState (Item : Type) where
  chats : List (String × String)
  channels : List (String × String)
  to_send_queue : List Item
  group_creation_queue : List (String × Bool)
  pending_messages : List (String × List Item)
  groups_being_created : List String
  saved_configs : List (List (String × String) × List (String × String))
deriving Repr, DecidableEq

/-- Embeds `get_signal_group_id`:
`chats.get(chat_id) or channels.get(chat_id)` — the `or` returns the first
operand when it is truthy, otherwise the second. -/
def get_signal_group_id {Item : Type} (st : BridgeState Item) (chat_id : String) :
    Option String :=
  let fromChats := alistGet chat_id st.chats
  if pyTruthy fromChats then fromChats else alistGet chat_id st.channels

/-- `pending_messages` update performed by `queue_or_create_group`:
`if chat_id not in pending_messages: pending_messages[chat_id] = []` followed
by `pending_messages[chat_id].append(item)`. -/
def bufferAppend {Item : Type} (chat_id : String) (item : Item)
    (pm : List (String × List Item)) : List (String × List Item) :=
  match alistGet chat_id pm with
  | none => alistSet chat_id [item] pm
  | some l => alistSet chat_id (l ++ [item]) pm

/-- Embeds `queue_or_create_group` (the dispatch router): deliver when the
chat is mapped, buffer when provisioning is already in flight, otherwise mark
in flight, buffer, and enqueue one provisioning request. -/
def queue_or_create_group {Item : Type} (st : BridgeState Item) (chat_id : String)
    (is_channel : Bool) (item : Item) : BridgeState Item :=
  if pyTruthy (get_signal_group_id st chat_id) then
    { st with to_send_queue := st.to_send_queue ++ [item] }
  else if listHas chat_id st.groups_being_created then
    { st with pending_messages := bufferAppend chat_id item st.pending_messages }
  else
    { st with
        groups_being_created := st.groups_being_created ++ [chat_id]
        pending_messages := bufferAppend chat_id item st.pending_messages
        group_creation_queue := st.group_creation_queue ++ [(chat_id, is_channel)] }

/-- Outcome of the awaited `create_signal_group(...)` call inside the worker
loop: a normal return carrying `str | None` (the function itself catches its
own errors and returns `None`; it also never returns an empty string), or an
exception propagating out of the `try` body. -/
inductive CreateOutcome where
  | returns (gid : Option String)
  | raises
deriving DecidableEq, Repr

/-- Embeds one iteration body of `process_group_creation_queue`, after the
request `(chat_id, is_channel)` has been dequeued, with the result of
`create_signal_group` supplied by `outcome`:

* on a truthy group id: write the new mapping into the config table selected
  by `is_channel`, call `save_config()` (logged in `saved_configs`), re-queue
  every buffered item for this chat onto `to_send_queue` in buffer order, and
  delete the buffer entry;
* on a falsy result: delete the buffer entry (discard buffered messages);
* on an exception: the `except` clause only logs;
* in the `finally` clause, always `groups_being_created.discard(chat_id)`. -/
def process_group_creation_once {Item : Type} (st : BridgeState Item)
    (chat_id : String) (is_channel : Bool) (outcome : CreateOutcome) :
    BridgeState Item :=
  let st1 :=
    match outcome with
    | .raises => st
    | .returns gid? =>
      if pyTruthy gid? then
        let gid := gid?.getD ""
        let st' :=
          if is_channel then { st with channels := alistSet chat_id gid st.channels }
          else { st with chats := alistSet chat_id gid st.chats }
        let st'' := { st' with saved_configs := st'.saved_configs ++ [(st'.chats, st'.channels)] }
        match alistGet chat_id st''.pending_messages with
        | some items =>
          { st'' with
              to_send_queue := st''.to_send_queue ++ items
              pending_messages := alistDel chat_id st''.pending_messages }
        | none => st''
      else
        { st with pending_messages := alistDel chat_id st.pending_messages }
  { st1 with groups_being_created := setDiscard chat_id st1.groups_being_created }

/-- One full iteration of the `process_group_creation_queue` loop: dequeue the
head provisioning request (the loop suspends when the queue is empty) and run
the body on it. -/
def process_group_creation_step {Item : Type} (st : BridgeState Item)
    (outcome : CreateOutcome) : Option (BridgeState Item) :=
  match st.group_creation_queue with
  | [] => none
  | (chat_id, is_channel) :: rest =>
    some (process_group_creation_once { st with group_creation_queue := rest }
      chat_id is_channel outcome)

/-! ### Delivery pipelines: temporary-file lifecycle
(`src/telegram_to_signal.py` `process_message`,
`src/core/signal_to_telegram.py` `process_telegram_send_queue`,
`src/media/converter.py` `cleanup_files`) -/

/-- Embeds `cleanup_files(*paths)`: for each path, if it is truthy (`none`
models Python `None` and the falsy empty string `''`) and the file exists,
remove it from storage (`os.remove`); a path absent from storage is skipped
by the `os.path.exists` guard. -/
def cleanup_files (paths : List (Option String)) (storage : List String) : List String :=
  match paths with
  | [] => storage
  | none :: rest => cleanup_files rest storage
  | some p :: rest => cleanup_files rest (storage.filter (fun q => q ≠ p))

/-- The case split that drives the temporary-file lifecycle of
`process_message` in the Telegram→Signal pipeline:

* `has_photo` / `has_video` / `has_voice` — which media the message carries
  (`msg.photo or msg.video or msg.voice` triggers the download);
* `conversion_ok` — whether `convert_ogg_to_m4a` returns a path (voice only);
* `mapped` — whether `get_signal_group_id` is truthy (otherwise the function
  returns early, before the cleanup line);
* `send_raises` — whether the `aiohttp` send raises (the exception is caught
  by the caller `process_queue`, so the cleanup line of `process_message` is
  never reached in that case). -/
structure MessageRun where
  has_photo : Bool
  has_video : Bool
  has_voice : Bool
  conversion_ok : Bool
  mapped : Bool
  send_raises : Bool
deriving DecidableEq, Repr

/-- Embeds the temporary-file lifecycle of `process_message`: which downloaded
(`"orig"`) and converted (`"conv"`) files exist on storage when processing of
the item finishes, and whether an exception propagated. `cleanup_files(a_path,
converted_path)` is straight-line code at the end of the function body — not a
`finally` block — so it runs only when the send completed without raising and
the chat was mapped. -/
def process_message_files (m : MessageRun) : List String × Bool :=
  let hasMedia := m.has_photo || m.has_video || m.has_voice
  let a_path : Option String := if hasMedia then some "orig" else none
  let converted : Option String :=
    if hasMedia && m.has_voice && m.conversion_ok then some "conv" else none
  let storage := a_path.toList ++ converted.toList
  if !m.mapped then (storage, false)
  else if m.send_raises then (storage, true)
  else (cleanup_files [a_path, converted] storage, false)

/-- One attachment of a queued Signal→Telegram item: its `id` (the filename,
possibly absent), whether the file exists under the signal-cli attachments
directory, and whether `convert_m4a_to_ogg_opus` succeeds on it (relevant for
`.m4a` voice notes only). -/
structure TgAttachment where
  id : Option String
  on_disk : Bool
  conversion_ok : Bool
deriving DecidableEq, Repr

/-- The original attachment path `os.path.join(signal_attachments_path, id)`,
abstracted. -/
def attachmentPath (id : String) : String := "attachments/" ++ id

/-- The conversion output path `/media/{name}.ogg` of
`convert_m4a_to_ogg_opus`, abstracted. -/
def convertedPath (id : String) : String := "media-ogg/" ++ id

/-- Embeds the attachment-classification loop of `process_telegram_send_queue`:
returns `(signal_attachment_paths, converted_voice_paths, voice_note_paths,
video_note_paths, attachment_paths)` in loop order. Attachments without an
`id` or whose file does not exist are skipped; `.m4a` files are voice notes
(converted, with fallback to the original on conversion failure); `.mp4` files
are video notes only when `send_video_as_note` is set; all other existing
files are generic attachments. -/
def classifyAttachments (send_video_as_note : Bool) :
    List TgAttachment →
      List String × List String × List String × List String × List String
  | [] => ([], [], [], [], [])
  | a :: t =>
    let (sig, conv, voice, video, gen) := classifyAttachments send_video_as_note t
    match a.id with
    | none => (sig, conv, voice, video, gen)
    | some id =>
      if a.on_disk then
        let fp := attachmentPath id
        if id.endsWith ".m4a" then
          if a.conversion_ok then
            (fp :: sig, convertedPath id :: conv, convertedPath id :: voice, video, gen)
          else
            (fp :: sig, conv, fp :: voice, video, gen)
        else if id.endsWith ".mp4" && send_video_as_note then
          (fp :: sig, conv, voice, fp :: video, gen)
        else
          (fp :: sig, conv, voice, video, fp :: gen)
      else (sig, conv, voice, video, gen)

/-- Embeds the temporary-file lifecycle of one `process_telegram_send_queue`
iteration: the tracked temporary files are the existing original attachments
(`signal_attachment_paths`) plus the conversion outputs
(`converted_voice_paths`); the `finally` clause calls
`cleanup_files(*converted_voice_paths)` then
`cleanup_files(*signal_attachment_paths)` whether or not one of the sends
raised. Returns the tracked files still on storage, and whether an exception
was raised (and caught by the surrounding `except`). -/
def process_telegram_send_files (send_video_as_note : Bool)
    (atts : List TgAttachment) (send_raises : Bool) : List String × Bool :=
  let (sig, conv, _, _, _) := classifyAttachments send_video_as_note atts
  let storage := sig ++ conv
  let remaining := cleanup_files (conv.map some ++ sig.map some) storage
  (remaining, send_raises)

/-! ### Signal→Telegram router (`src/core/signal_to_telegram.py`
`handle_signal_message`) -/

/-- The canonical message-info record built by
`SignalSSEListener._handle_event` and consumed by `handle_signal_message`. -/
structure SignalMessageInfo where
  group_id : String
  message : String
  sender_name : String
  sender_number : String
  sender_uuid : String
  timestamp : Int
  attachments : List String
deriving DecidableEq, Repr

/-- The dict enqueued on `telegram_send_queue` by `handle_signal_message`.
The Python code stores `int(chat_id)`; the chat id is kept as its source
string here (the conversion does not affect queueing behaviour). -/
structure TelegramSendItem where
  chat_id : String
  is_channel : Bool
  message : String
  sender_name : String
  attachments : List String
  signal_json_rpc : String
  sender_number : String
  sender_uuid : String
  timestamp : Int
deriving DecidableEq, Repr

/-- Embeds `handle_signal_message`: skip messages with no text and no
attachments; skip messages whose Signal group has no Telegram mapping
(`lookup` models `config.get_telegram_chat_id(group_id)`); otherwise append
one item to `telegram_send_queue`. The function touches no other state. -/
def handle_signal_message (mi : SignalMessageInfo) (signal_json_rpc : String)
    (lookup : Option (String × Bool)) (q : List TelegramSendItem) :
    List TelegramSendItem :=
  if mi.message = "" && mi.attachments.isEmpty then q
  else
    match lookup with
    | none => q
    | some (chat_id, is_channel) =>
      q ++ [⟨chat_id, is_channel, mi.message, mi.sender_name, mi.attachments,
        signal_json_rpc, mi.sender_number, mi.sender_uuid, mi.timestamp⟩]

/-! ### SSE listener reconnection loop (`src/signal_listener.py`
`SignalSSEListener.start`) -/

/-- Outcome of one `await self._listen()` attempt inside the `start` loop:

* `failConn` — the connection failed: a non-2xx response (`_listen` logs and
  returns) or a transport error / unexpected exception (caught and logged);
* `cancel` — `asyncio.CancelledError`: the loop `break`s;
* `stopDuring` — `stop()` was called while the attempt was in progress, so
  `_running` is false when `_listen` returns. -/
inductive SSEOutcome where
  | failConn
  | cancel
  | stopDuring
deriving DecidableEq, Repr

/-- Observable events of the `start` loop: a connection attempt
(`self._session.get(self.events_url)`), the fixed backoff
`asyncio.sleep(self.reconnect_delay)`, and the final
`self._session.close()`. -/
inductive SSEEvent where
  | connect
  | sleep (delay : Nat)
  | closeSession
deriving DecidableEq, Repr

/-- Embeds the `start` loop of `SignalSSEListener`, run against a finite
observation of attempt outcomes. Each iteration connects; after a failed
attempt, if still running, it sleeps `reconnect_delay` and loops. The loop is
left — and the session closed — only on cancellation or an external `stop()`;
when the observation list is exhausted the loop is still alive (second
component `false`). -/
def sse_start_run (delay : Nat) : List SSEOutcome → List SSEEvent × Bool
  | [] => ([], false)
  | .failConn :: rest =>
    let (t, e) := sse_start_run delay rest
    (.connect :: .sleep delay :: t, e)
  | .cancel :: _ => ([.connect, .closeSession], true)
  | .stopDuring :: _ => ([.connect, .closeSession], true)

/-- Number of connection attempts in an event trace. -/
def countConnects : List SSEEvent → Nat
  | [] => 0
  | .connect :: t => countConnects t + 1
  | _ :: t => countConnects t

/-! ### Helper lemmas -/

theorem alistGet_alistSet_self {α : Type} (k : String) (v : α) (m : List (String × α)) :
    alistGet k (alistSet k v m) = some v := by
  induction m with
  | nil => simp [alistSet, alistGet]
  | cons p t ih =>
    obtain ⟨k', v'⟩ := p
    by_cases h : k' = k
    · simp [alistSet, alistGet, h]
    · simp [alistSet, alistGet, h, ih]

theorem alistGet_alistDel_self {α : Type} (k : String) (m : List (String × α)) :
    alistGet k (alistDel k m) = none := by
  induction m with
  | nil => simp [alistDel, alistGet]
  | cons p t ih =>
    obtain ⟨k', v'⟩ := p
    by_cases h : k' = k
    · simp [alistDel, h, ih]
    · simp [alistDel, alistGet, h, ih]

theorem alistGet_bufferAppend_self {Item : Type} (k : String) (i : Item)
    (pm : List (String × List Item)) :
    alistGet k (bufferAppend k i pm) = some ((alistGet k pm).getD [] ++ [i]) := by
  unfold bufferAppend
  cases h : alistGet k pm with
  | none => simp [alistGet_alistSet_self]
  | some l => simp [alistGet_alistSet_self]

theorem listHas_append_self (k : String) (s : List String) :
    listHas k (s ++ [k]) = true := by
  induction s with
  | nil => simp [listHas]
  | cons a t ih =>
    by_cases h : a = k
    · simp [listHas, h]
    · simp [listHas, h, ih]

theorem listHas_setDiscard_self (k : String) (s : List String) :
    listHas k (setDiscard k s) = false := by
  induction s with
  | nil => rfl
  | cons a t ih =>
    by_cases h : a = k
    · simp [setDiscard, h, ih]
    · simp [setDiscard, listHas, h, ih]


theorem convertF_of_findMatch_none (fuel : Nat) (s : List Char)
    (h : findMatch s = none) : convertF fuel s = (s, []) := by
  cases fuel with
  | zero => rfl
  | succ n => simp [convertF, h]

theorem matchAt_cons_none (c : Char) (t : List Char) (h : specialChar c = false) :
    matchAt (c :: t) = none := by
  have h' : ¬(c = '*' ∨ c = '_' ∨ c = '~' ∨ c = '|' ∨ c = '`' ∨ c = '[') := by
    simpa [specialChar] using h
  push_neg at h'
  obtain ⟨h1, h2, h3, h4, h5, h6⟩ := h'
  simp [matchAt, h1, h2, h3, h4, h5, h6]

theorem findMatch_of_all_plain (s : List Char) (h : ∀ a ∈ s, specialChar a = false) :
    findMatch s = none := by
  induction s with
  | nil => rfl
  | cons c t ih =>
    have hc := matchAt_cons_none c t (h c (by simp))
    have ht := ih (fun a ha => h a (by simp [ha]))
    simp [findMatch, hc, ht]

theorem scan2_plain_close (d : Char) (y : List Char) (hd : ∀ b ∈ y, b ≠ d) :
    scan2 d (y ++ [d, d]) = some (y, []) := by
  induction y with
  | nil => simp [scan2]
  | cons b y ih =>
    have hb : b ≠ d := hd b (by simp)
    have ht : ∀ e ∈ y, e ≠ d := fun e he => hd e (by simp [he])
    have ih' := ih ht
    cases y with
    | nil => simp [scan2, hb]
    | cons b2 y2 => simp [scan2, hb, List.cons_append] at ih' ⊢; simp [ih']

theorem matchAt_bold (x : List Char) (hx : x ≠ []) (hs : ∀ b ∈ x, b ≠ '*') :
    matchAt ('*' :: '*' :: (x ++ ['*', '*'])) = some (Style.BOLD, x, []) := by
  cases x with
  | nil => exact absurd rfl hx
  | cons a t =>
    have ht : ∀ e ∈ t, e ≠ '*' := fun e he => hs e (by simp [he])
    simp [matchAt, frame2, close2, List.cons_append, scan2_plain_close '*' t ht]

theorem convertF_step_simple (fuel : Nat) (s pre inner rest : List Char) (st : Style)
    (h : findMatch s = some (pre, st, inner, rest)) (hi : findMatch inner = none)
    (hr : findMatch rest = none) :
    convertF (fuel + 1) s =
      (pre ++ inner ++ rest,
        [⟨get_utf16_length pre, get_utf16_length inner, st⟩]) := by
  simp [convertF, h, convertF_of_findMatch_none fuel inner hi,
    convertF_of_findMatch_none fuel rest hr]

theorem cleanup_files_mem (paths : List (Option String)) (storage : List String)
    (q : String) (hq : q ∈ cleanup_files paths storage) :
    q ∈ storage ∧ some q ∉ paths := by
  induction paths generalizing storage with
  | nil => simpa [cleanup_files] using hq
  | cons p rest ih =>
    cases p with
    | none =>
      have := ih storage (by simpa [cleanup_files] using hq)
      exact ⟨this.1, by simp [this.2]⟩
    | some p' =>
      have h1 := ih (storage.filter (fun q => q ≠ p'))
        (by simpa [cleanup_files] using hq)
      have h2 : q ∈ storage ∧ q ≠ p' := by
        have := h1.1
        simp only [List.mem_filter, decide_eq_true_eq] at this
        exact this
      refine ⟨h2.1, ?_⟩
      simp [h1.2, h2.2]

theorem sse_run_all_failures (delay N : Nat) :
    sse_start_run delay (List.replicate N .failConn) =
      ((List.replicate N [SSEEvent.connect, SSEEvent.sleep delay]).flatten, false) := by
  induction N with
  | zero => rfl
  | succ n ih => simp [List.replicate_succ, sse_start_run, ih]

theorem sse_run_connect_count (delay N : Nat) (o : SSEOutcome) :
    countConnects (sse_start_run delay (List.replicate N .failConn ++ [o])).1 = N + 1 := by
  induction N with
  | zero => cases o <;> rfl
  | succ n ih => simpa [List.replicate_succ, sse_start_run, countConnects] using ih

theorem sse_run_exit_eq (delay : Nat) (os : List SSEOutcome) :
    (sse_start_run delay os).2 = os.any (fun x => x ≠ SSEOutcome.failConn) := by
  induction os with
  | nil => rfl
  | cons o rest ih => cases o <;> simp [sse_start_run, ih]

/-! ### Claims -/

/-- Claim C1: two successive `queue_or_create_group` calls for the same
conversation id with no Directory mapping and no provisioning in flight at
the first call enqueue exactly one provisioning request `(chat_id,
is_channel)` on the group-creation queue, leave both items in
`pending_messages[chat_id]` in call order (after anything already buffered
there), and enqueue nothing on the delivery queue. -/
theorem C1_dispatch_dedup {Item : Type} (st : BridgeState Item) (c : String) (b : Bool)
    (i1 i2 : Item)
    (hmap : pyTruthy (get_signal_group_id st c) = false)
    (hflight : listHas c st.groups_being_created = false) :
    (queue_or_create_group (queue_or_create_group st c b i1) c b i2).group_creation_queue
        = st.group_creation_queue ++ [(c, b)]
    ∧ alistGet c (queue_or_create_group (queue_or_create_group st c b i1) c b i2).pending_messages
        = some ((alistGet c st.pending_messages).getD [] ++ [i1, i2])
    ∧ (queue_or_create_group (queue_or_create_group st c b i1) c b i2).to_send_queue
        = st.to_send_queue := by
  have h1 : queue_or_create_group st c b i1 =
      { st with
          groups_being_created := st.groups_being_created ++ [c]
          pending_messages := bufferAppend c i1 st.pending_messages
          group_creation_queue := st.group_creation_queue ++ [(c, b)] } := by
    simp [queue_or_create_group, hmap, hflight]
  rw [h1]
  have hmap2 : pyTruthy (get_signal_group_id
      ({ st with
          groups_being_created := st.groups_being_created ++ [c]
          pending_messages := bufferAppend c i1 st.pending_messages
          group_creation_queue := st.group_creation_queue ++ [(c, b)] } : BridgeState Item) c)
        = false := by
    simpa [get_signal_group_id] using hmap
  simp [queue_or_create_group, hmap2, listHas_append_self,
    alistGet_bufferAppend_self]

/-- Claim C1 witness: concrete two-call run from the empty state. -/
theorem C1_dispatch_dedup_witness :
    pyTruthy (get_signal_group_id (⟨[], [], [], [], [], [], []⟩ : BridgeState Nat) "7") = false
    ∧ listHas "7" (⟨[], [], [], [], [], [], []⟩ : BridgeState Nat).groups_being_created = false
    ∧ (queue_or_create_group (queue_or_create_group
        (⟨[], [], [], [], [], [], []⟩ : BridgeState Nat) "7" true 1) "7" true 2).group_creation_queue
        = [("7", true)]
    ∧ alistGet "7" (queue_or_create_group (queue_or_create_group
        (⟨[], [], [], [], [], [], []⟩ : BridgeState Nat) "7" true 1) "7" true 2).pending_messages
        = some [1, 2] := by
  refine ⟨by decide, by decide, ?_, ?_⟩
  · exact (C1_dispatch_dedup _ "7" true 1 2 (by decide) (by decide)).1
  · exact (C1_dispatch_dedup _ "7" true 1 2 (by decide) (by decide)).2.1

/-- Claim C2: when `create_signal_group` resolves with a (truthy) group id,
the new mapping is written into the direction-appropriate config table and
persisted (one `save_config` call logging the updated tables), every item
buffered for that conversation is re-submitted to the delivery queue in
original arrival order, and no buffer entry remains for the conversation. -/
theorem C2_provisioning_replay {Item : Type} (st : BridgeState Item) (c : String)
    (b : Bool) (gid : String) (hgid : gid ≠ "") :
    alistGet c (if b then (process_group_creation_once st c b (.returns (some gid))).channels
        else (process_group_creation_once st c b (.returns (some gid))).chats) = some gid
    ∧ (process_group_creation_once st c b (.returns (some gid))).saved_configs
        = st.saved_configs ++
            [((process_group_creation_once st c b (.returns (some gid))).chats,
              (process_group_creation_once st c b (.returns (some gid))).channels)]
    ∧ (process_group_creation_once st c b (.returns (some gid))).to_send_queue
        = st.to_send_queue ++ (alistGet c st.pending_messages).getD []
    ∧ alistGet c (process_group_creation_once st c b (.returns (some gid))).pending_messages
        = none := by
  have hg : pyTruthy (some gid) = true := by simp [pyTruthy, hgid]
  cases b <;> cases hpm : alistGet c st.pending_messages <;>
    simp [process_group_creation_once, hg, hpm, alistGet_alistSet_self,
      alistGet_alistDel_self]

/-- Claim C2 witness: concrete successful provisioning with two buffered
items. -/
theorem C2_provisioning_replay_witness :
    ("G" : String) ≠ ""
    ∧ (process_group_creation_once
        (⟨[], [], [], [], [("7", [5, 6])], ["7"], []⟩ : BridgeState Nat)
        "7" false (CreateOutcome.returns (some "G"))).to_send_queue = [5, 6]
    ∧ alistGet "7" (process_group_creation_once
        (⟨[], [], [], [], [("7", [5, 6])], ["7"], []⟩ : BridgeState Nat)
        "7" false (CreateOutcome.returns (some "G"))).pending_messages = none := by
  refine ⟨by decide, ?_, ?_⟩
  · exact (C2_provisioning_replay _ "7" false "G" (by decide)).2.2.1
  · exact (C2_provisioning_replay _ "7" false "G" (by decide)).2.2.2

/-- Claim C3: when `create_signal_group` yields no group id, the pending
buffer entry for the conversation is removed and nothing is placed on the
delivery queue (nor is any mapping added or persisted). -/
theorem C3_provisioning_failure_discard {Item : Type} (st : BridgeState Item)
    (c : String) (b : Bool) :
    alistGet c (process_group_creation_once st c b (.returns none)).pending_messages = none
    ∧ (process_group_creation_once st c b (.returns none)).to_send_queue = st.to_send_queue
    ∧ (process_group_creation_once st c b (.returns none)).chats = st.chats
    ∧ (process_group_creation_once st c b (.returns none)).channels = st.channels
    ∧ (process_group_creation_once st c b (.returns none)).saved_configs
        = st.saved_configs := by
  simp [process_group_creation_once, pyTruthy, alistGet_alistDel_self]

/-- Claim C4: after the loop body for a provisioning request completes — on
success, on falsy failure, and when the body raises — the conversation id is
no longer in `groups_being_created` (the `finally` clause discards it), so it
is in particular never both mapped and in flight afterwards. -/
theorem C4_inflight_cleared {Item : Type} (st : BridgeState Item) (c : String)
    (b : Bool) (outcome : CreateOutcome) :
    listHas c (process_group_creation_once st c b outcome).groups_being_created = false
    ∧ (pyTruthy (get_signal_group_id (process_group_creation_once st c b outcome) c)
        && listHas c (process_group_creation_once st c b outcome).groups_being_created)
        = false := by
  have h : listHas c (process_group_creation_once st c b outcome).groups_being_created
      = false := by
    simp only [process_group_creation_once]
    exact listHas_setDiscard_self c _
  exact ⟨h, by simp [h]⟩

/-- Claim C5 counterexample: a voice message in the Telegram→Signal pipeline
whose send raises. `process_message` reaches neither cleanup (its
`cleanup_files` call is straight-line code after the send, not a `finally`
block), so both the downloaded file and the converted file remain on storage
after the pipeline finishes the item — refuting the claim that cleanup is
guaranteed in both pipelines. -/
theorem C5_counterexample_cleanup_skipped_on_raise :
    process_message_files ⟨false, false, true, true, true, true⟩ = (["orig", "conv"], true)
    ∧ (["orig", "conv"] : List String) ≠ [] := by
  exact ⟨rfl, by decide⟩

/-- Claim C5, amended: in the Signal→Telegram pipeline
(`process_telegram_send_queue`) cleanup is a `finally` block, so every
tracked temporary file (existing original attachments and conversion
outputs) is deleted whether or not the send raised; in the Telegram→Signal
pipeline (`process_message`) the temporary files are deleted only when the
chat is mapped and processing completes without an exception. -/
theorem C5_cleanup_amended :
    (∀ (svn : Bool) (atts : List TgAttachment) (r : Bool),
        (process_telegram_send_files svn atts r).1 = [])
    ∧ (∀ m : MessageRun, m.mapped = true → m.send_raises = false →
        process_message_files m = ([], false)) := by
  constructor
  · intro svn atts r
    rcases hcl : classifyAttachments svn atts with ⟨sig, conv, voice, video, gen⟩
    simp only [process_telegram_send_files, hcl]
    refine List.eq_nil_iff_forall_not_mem.mpr ?_
    intro q hq
    have h := cleanup_files_mem _ _ q hq
    rcases List.mem_append.mp h.1 with h1 | h1
    · exact h.2 (by simp [h1])
    · exact h.2 (by simp [h1])
  · intro m h1 h2
    obtain ⟨p, v, vo, co, mp, sr⟩ := m
    simp only at h1 h2
    subst h1; subst h2
    cases p <;> cases v <;> cases vo <;> cases co <;> decide

/-- Claim C5 amended witness: one send-raising Signal→Telegram item with a
voice note still ends with no tracked files, and one clean Telegram→Signal
photo message ends with no files and no exception. -/
theorem C5_cleanup_amended_witness :
    (process_telegram_send_files true [⟨some "a.m4a", true, true⟩] true).1 = []
    ∧ (⟨true, false, false, true, true, false⟩ : MessageRun).mapped = true
    ∧ (⟨true, false, false, true, true, false⟩ : MessageRun).send_raises = false
    ∧ process_message_files ⟨true, false, false, true, true, false⟩ = ([], false) :=
  ⟨C5_cleanup_amended.1 true [⟨some "a.m4a", true, true⟩] true, rfl, rfl,
    C5_cleanup_amended.2 ⟨true, false, false, true, true, false⟩ rfl rfl⟩

/-- Claim C6: an input with no match of any of the six marker patterns is
returned unchanged with an empty style list. -/
theorem C6_literal_roundtrip (s : List Char) (h : findMatch s = none) :
    convert_telegram_markdown s = (s, []) := by
  unfold convert_telegram_markdown
  exact convertF_of_findMatch_none s.length s h

/-- Claim C6 witness: the literal input `"hi"`. -/
theorem C6_literal_roundtrip_witness :
    findMatch ['h', 'i'] = none
    ∧ convert_telegram_markdown ['h', 'i'] = (['h', 'i'], []) :=
  ⟨by decide, C6_literal_roundtrip ['h', 'i'] (by decide)⟩

/-- Claim C7: `convert("**__x__**")` yields plain text `"x"` with exactly two
style ranges — an outer Bold range at offset 0 of length `utf16("x")` and an
inner Italic range over the same span — both members of the returned list. -/
theorem C7_nested_bold_italic :
    convert_telegram_markdown ['*', '*', '_', '_', 'x', '_', '_', '*', '*']
        = (['x'], [⟨0, get_utf16_length ['x'], Style.BOLD⟩,
            ⟨0, get_utf16_length ['x'], Style.ITALIC⟩])
    ∧ (⟨0, get_utf16_length ['x'], Style.BOLD⟩ : StyleRange)
        ∈ (convert_telegram_markdown ['*', '*', '_', '_', 'x', '_', '_', '*', '*']).2
    ∧ (⟨0, get_utf16_length ['x'], Style.ITALIC⟩ : StyleRange)
        ∈ (convert_telegram_markdown ['*', '*', '_', '_', 'x', '_', '_', '*', '*']).2
    ∧ (convert_telegram_markdown ['*', '*', '_', '_', 'x', '_', '_', '*', '*']).2.length
        = 2 := by
  decide

/-- Claim C8: with a surrogate-pair code point (≥ `0x10000`) preceding a bold
span of plain inner text, the recorded bold range starts at offset `2` — the
UTF-16 width of the preceding character over the output text — and has the
UTF-16 length of the inner text. -/
theorem C8_utf16_surrogate_offset (c : Char) (x : List Char)
    (hc : 65536 ≤ c.toNat) (hx : x ≠ [])
    (hp : ∀ a ∈ x, specialChar a = false) :
    get_utf16_length [c] = 2
    ∧ convert_telegram_markdown (c :: '*' :: '*' :: (x ++ ['*', '*']))
        = (c :: x, [⟨2, get_utf16_length x, Style.BOLD⟩]) := by
  have h2 : get_utf16_length [c] = 2 := by
    rw [get_utf16_length, get_utf16_length, if_neg (by omega)]
  have hstar : ∀ b ∈ x, b ≠ '*' := by
    intro b hb heq
    have hbs := hp b hb
    rw [heq] at hbs
    exact absurd hbs (by decide)
  have hcs : specialChar c = false := by
    simp only [specialChar, decide_eq_false_iff_not]
    rintro (rfl | rfl | rfl | rfl | rfl | rfl) <;> exact absurd hc (by decide)
  have hin : findMatch x = none := findMatch_of_all_plain x hp
  have hbold := matchAt_bold x hx hstar
  have hfm : findMatch (c :: '*' :: '*' :: (x ++ ['*', '*']))
      = some ([c], Style.BOLD, x, []) := by
    simp [findMatch, matchAt_cons_none c _ hcs, hbold]
  have hlen : (c :: '*' :: '*' :: (x ++ ['*', '*'])).length = (x.length + 4) + 1 := by
    simp
  refine ⟨h2, ?_⟩
  unfold convert_telegram_markdown
  rw [hlen, convertF_step_simple (x.length + 4) _ [c] x [] Style.BOLD hfm hin rfl]
  simp [h2]

/-- Claim C8 witness: U+1D11E (musical symbol G clef) followed by `**x**`. -/
theorem C8_utf16_surrogate_offset_witness :
    65536 ≤ (Char.ofNat 119070).toNat
    ∧ (['x'] : List Char) ≠ []
    ∧ (∀ a ∈ (['x'] : List Char), specialChar a = false)
    ∧ convert_telegram_markdown (Char.ofNat 119070 :: '*' :: '*' :: (['x'] ++ ['*', '*']))
        = (Char.ofNat 119070 :: ['x'], [⟨2, get_utf16_length ['x'], Style.BOLD⟩]) :=
  ⟨by decide, by decide, by decide,
    (C8_utf16_surrogate_offset (Char.ofNat 119070) ['x'] (by decide) (by decide)
      (by decide)).2⟩

/-- Claim C9: against any observation of `N` consecutive connection failures
the `start` loop produces exactly `N` connect events each followed by one
fixed-backoff sleep and is still running; one further observed outcome of any
kind yields the `(N+1)`-th connection attempt; and the loop exits only when
an observed outcome is a cancellation or an external stop. -/
theorem C9_reconnect_loop (delay N : Nat) (o : SSEOutcome) (os : List SSEOutcome) :
    sse_start_run delay (List.replicate N .failConn)
        = ((List.replicate N [SSEEvent.connect, SSEEvent.sleep delay]).flatten, false)
    ∧ countConnects (sse_start_run delay (List.replicate N .failConn ++ [o])).1 = N + 1
    ∧ (sse_start_run delay os).2 = os.any (fun x => x ≠ SSEOutcome.failConn) :=
  ⟨sse_run_all_failures delay N, sse_run_connect_count delay N o,
    sse_run_exit_eq delay os⟩

/-- Claim C10: `handle_signal_message` enqueues nothing (and changes nothing)
for a Signal message with empty text and no attachments, whatever the
Directory lookup would say. -/
theorem C10_empty_signal_message_skipped (mi : SignalMessageInfo) (rpc : String)
    (lookup : Option (String × Bool)) (q : List TelegramSendItem)
    (hm : mi.message = "") (ha : mi.attachments = []) :
    handle_signal_message mi rpc lookup q = q := by
  simp [handle_signal_message, hm, ha]

/-- Claim C10 witness: a concrete empty message with a mapped group. -/
theorem C10_empty_signal_message_skipped_witness :
    (⟨"g", "", "n", "+1", "u", 0, []⟩ : SignalMessageInfo).message = ""
    ∧ (⟨"g", "", "n", "+1", "u", 0, []⟩ : SignalMessageInfo).attachments = []
    ∧ handle_signal_message ⟨"g", "", "n", "+1", "u", 0, []⟩ "rpc"
        (some ("5", false)) [] = [] :=
  ⟨rfl, rfl,
    C10_empty_signal_message_skipped ⟨"g", "", "n", "+1", "u", 0, []⟩ "rpc"
      (some ("5", false)) [] rfl rfl⟩

/-! ### Adequacy of the fuel in `convert_telegram_markdown`
Every match consumes at least two delimiter characters beyond its inner span,
so the recursive calls of `convertF` are on strictly shorter lists and the
initial fuel `s.length` never runs out: `convertF` computes the same result
for every fuel of at least `s.length`, matching the unfueled Python
recursion. -/

theorem scan2_sizes (d : Char) : ∀ (s i r : List Char), scan2 d s = some (i, r) →
    i.length + r.length + 2 = s.length
  | [], _, _, h => by simp [scan2] at h
  | [_], _, _, h => by simp [scan2] at h
  | a :: b :: t, i, r, h => by
    by_cases hab : a = d ∧ b = d
    · simp [scan2, hab] at h
      obtain ⟨h1, h2⟩ := h
      subst h1; subst h2
      simp
    · simp only [scan2, if_neg hab] at h
      rcases hs : scan2 d (b :: t) with _ | ⟨i', r'⟩
      · rw [hs] at h; simp at h
      · rw [hs] at h
        simp at h
        obtain ⟨h1, h2⟩ := h
        have hrec := scan2_sizes d (b :: t) i' r' hs
        subst h1; subst h2
        simp at hrec ⊢
        omega

theorem scan1_sizes (d : Char) : ∀ (s i r : List Char), scan1 d s = some (i, r) →
    i.length + r.length + 1 = s.length
  | [], _, _, h => by simp [scan1] at h
  | a :: t, i, r, h => by
    by_cases ha : a = d
    · simp [scan1, ha] at h
      obtain ⟨h1, h2⟩ := h
      subst h1; subst h2
      simp
    · simp only [scan1, if_neg ha] at h
      rcases hs : scan1 d t with _ | ⟨i', r'⟩
      · rw [hs] at h; simp at h
      · rw [hs] at h
        simp at h
        obtain ⟨h1, h2⟩ := h
        have hrec := scan1_sizes d t i' r' hs
        subst h1; subst h2
        simp at hrec ⊢
        omega

theorem close2_sizes (d : Char) (s i r : List Char) (h : close2 d s = some (i, r)) :
    i.length + r.length + 2 = s.length := by
  cases s with
  | nil => simp [close2] at h
  | cons a t =>
    simp only [close2] at h
    rcases hs : scan2 d t with _ | ⟨i', r'⟩
    · rw [hs] at h; simp at h
    · rw [hs] at h
      simp at h
      obtain ⟨h1, h2⟩ := h
      have hrec := scan2_sizes d t i' r' hs
      subst h1; subst h2
      simp
      omega

theorem close1_sizes (d : Char) (s i r : List Char) (h : close1 d s = some (i, r)) :
    i.length + r.length + 1 = s.length := by
  cases s with
  | nil => simp [close1] at h
  | cons a t =>
    simp only [close1] at h
    rcases hs : scan1 d t with _ | ⟨i', r'⟩
    · rw [hs] at h; simp at h
    · rw [hs] at h
      simp at h
      obtain ⟨h1, h2⟩ := h
      have hrec := scan1_sizes d t i' r' hs
      subst h1; subst h2
      simp
      omega

theorem frame2_sizes (d : Char) (s i r : List Char) (h : frame2 d s = some (i, r)) :
    i.length + r.length + 3 = s.length := by
  cases s with
  | nil => simp [frame2] at h
  | cons c2 t =>
    simp only [frame2] at h
    by_cases hc : c2 = d
    · rw [if_pos hc] at h
      have := close2_sizes d t i r h
      simp
      omega
    · rw [if_neg hc] at h; simp at h

theorem urlAfter_sizes : ∀ (s r : List Char), urlAfter s = some r →
    r.length + 1 ≤ s.length
  | [], _, h => by simp [urlAfter] at h
  | c :: t, r, h => by
    by_cases hc : c = ')'
    · simp [urlAfter, hc] at h
      subst h
      simp
    · simp only [urlAfter, if_neg hc] at h
      have := urlAfter_sizes t r h
      simp
      omega

theorem urlRun_sizes (s r : List Char) (h : urlRun s = some r) :
    r.length + 2 ≤ s.length := by
  cases s with
  | nil => simp [urlRun] at h
  | cons c t =>
    by_cases hc : c = ')'
    · simp [urlRun, hc] at h
    · simp only [urlRun, if_neg hc] at h
      have := urlAfter_sizes t r h
      simp
      omega

theorem linkTail_sizes (s r : List Char) (h : linkTail s = some r) :
    r.length + 4 ≤ s.length := by
  rw [linkTail.eq_def] at h
  split at h
  · next t =>
    have := urlRun_sizes t r h
    simp
    omega
  · simp at h

theorem scanLinkAux_sizes : ∀ (s i r : List Char), scanLinkAux s = some (i, r) →
    i.length + r.length + 4 ≤ s.length
  | [], _, _, h => by simp [scanLinkAux] at h
  | a :: t, i, r, h => by
    simp only [scanLinkAux] at h
    rcases hl : linkTail (a :: t) with _ | r0
    · rw [hl] at h
      rcases hs : scanLinkAux t with _ | ⟨i', r'⟩
      · rw [hs] at h; simp at h
      · rw [hs] at h
        simp at h
        obtain ⟨h1, h2⟩ := h
        subst h1; subst h2
        have := scanLinkAux_sizes t i' r' hs
        simp at this ⊢
        omega
    · rw [hl] at h
      simp at h
      obtain ⟨h1, h2⟩ := h
      subst h1; subst h2
      have := linkTail_sizes (a :: t) r0 hl
      simpa using this

theorem closeLink_sizes (s i r : List Char) (h : closeLink s = some (i, r)) :
    i.length + r.length + 4 ≤ s.length := by
  cases s with
  | nil => simp [closeLink] at h
  | cons a t =>
    simp only [closeLink] at h
    rcases hs : scanLinkAux t with _ | ⟨i', r'⟩
    · rw [hs] at h; simp at h
    · rw [hs] at h
      simp at h
      obtain ⟨h1, h2⟩ := h
      subst h1; subst h2
      have := scanLinkAux_sizes t i' r' hs
      simp
      omega

theorem matchAt_sizes (s : List Char) (st : Style) (i r : List Char)
    (h : matchAt s = some (st, i, r)) : i.length + r.length + 2 ≤ s.length := by
  cases s with
  | nil => simp [matchAt] at h
  | cons c t =>
    simp only [matchAt] at h
    by_cases h1 : c = '*'
    · rw [if_pos h1] at h
      rcases hf : frame2 '*' t with _ | ⟨i', r'⟩
      · rw [hf] at h; simp at h
      · rw [hf] at h
        simp at h
        obtain ⟨_, ha, hb⟩ := h
        rw [ha, hb] at hf
        have := frame2_sizes '*' t i r hf
        simp
        omega
    · rw [if_neg h1] at h
      by_cases h2 : c = '_'
      · rw [if_pos h2] at h
        rcases hf : frame2 '_' t with _ | ⟨i', r'⟩
        · rw [hf] at h; simp at h
        · rw [hf] at h
          simp at h
          obtain ⟨_, ha, hb⟩ := h
          rw [ha, hb] at hf
          have := frame2_sizes '_' t i r hf
          simp
          omega
      · rw [if_neg h2] at h
        by_cases h3 : c = '~'
        · rw [if_pos h3] at h
          rcases hf : frame2 '~' t with _ | ⟨i', r'⟩
          · rw [hf] at h; simp at h
          · rw [hf] at h
            simp at h
            obtain ⟨_, ha, hb⟩ := h
            rw [ha, hb] at hf
            have := frame2_sizes '~' t i r hf
            simp
            omega
        · rw [if_neg h3] at h
          by_cases h4 : c = '|'
          · rw [if_pos h4] at h
            rcases hf : frame2 '|' t with _ | ⟨i', r'⟩
            · rw [hf] at h; simp at h
            · rw [hf] at h
              simp at h
              obtain ⟨_, ha, hb⟩ := h
              rw [ha, hb] at hf
              have := frame2_sizes '|' t i r hf
              simp
              omega
          · rw [if_neg h4] at h
            by_cases h5 : c = '`'
            · rw [if_pos h5] at h
              rcases hf : close1 '`' t with _ | ⟨i', r'⟩
              · rw [hf] at h; simp at h
              · rw [hf] at h
                simp at h
                obtain ⟨_, ha, hb⟩ := h
                rw [ha, hb] at hf
                have := close1_sizes '`' t i r hf
                simp
                omega
            · rw [if_neg h5] at h
              by_cases h6 : c = '['
              · rw [if_pos h6] at h
                rcases hf : closeLink t with _ | ⟨i', r'⟩
                · rw [hf] at h; simp at h
                · rw [hf] at h
                  simp at h
                  obtain ⟨_, ha, hb⟩ := h
                  rw [ha, hb] at hf
                  have := closeLink_sizes t i r hf
                  simp
                  omega
              · rw [if_neg h6] at h
                simp at h

theorem findMatch_sizes : ∀ (s p : List Char) (st : Style) (i r : List Char),
    findMatch s = some (p, st, i, r) → i.length < s.length ∧ r.length < s.length
  | [], _, _, _, _, h => by simp [findMatch] at h
  | c :: t, p, st, i, r, h => by
    simp only [findMatch] at h
    rcases hm : matchAt (c :: t) with _ | ⟨st', i', r'⟩
    · rw [hm] at h
      rcases hf : findMatch t with _ | q
      · rw [hf] at h; simp at h
      · obtain ⟨p0, st0, i0, r0⟩ := q
        rw [hf] at h
        simp at h
        obtain ⟨h1, h2, h3, h4⟩ := h
        rw [h2, h3, h4] at hf
        have := findMatch_sizes t p0 st i r hf
        obtain ⟨ha, hb⟩ := this
        simp
        omega
    · rw [hm] at h
      simp at h
      obtain ⟨h1, h2, h3, h4⟩ := h
      rw [h2, h3, h4] at hm
      have := matchAt_sizes (c :: t) st i r hm
      simp at this ⊢
      omega

theorem convertF_fuel_eq : ∀ (n f g : Nat) (s : List Char), s.length ≤ n →
    s.length ≤ f → s.length ≤ g → convertF f s = convertF g s := by
  intro n
  induction n with
  | zero =>
    intro f g s hn _ _
    have hnil : s = [] := List.eq_nil_of_length_eq_zero (Nat.le_zero.mp hn)
    subst hnil
    cases f <;> cases g <;> simp [convertF, findMatch]
  | succ n ih =>
    intro f g s hn hf hg
    cases hs : findMatch s with
    | none =>
      rw [convertF_of_findMatch_none f s hs, convertF_of_findMatch_none g s hs]
    | some q =>
      obtain ⟨p, st, i, r⟩ := q
      obtain ⟨hi1, hi2⟩ := findMatch_sizes s p st i r hs
      cases f with
      | zero =>
        have hnil : s = [] := List.eq_nil_of_length_eq_zero (Nat.le_zero.mp hf)
        subst hnil
        simp [findMatch] at hs
      | succ f' =>
        cases g with
        | zero =>
          have hnil : s = [] := List.eq_nil_of_length_eq_zero (Nat.le_zero.mp hg)
          subst hnil
          simp [findMatch] at hs
        | succ g' =>
          simp only [convertF, hs]
          have hri : convertF f' i = convertF g' i := ih f' g' i (by omega) (by omega) (by omega)
          have hrr : convertF f' r = convertF g' r := ih f' g' r (by omega) (by omega) (by omega)
          rw [hri, hrr]

/-- For any fuel of at least the input length, `convertF` agrees with
`convert_telegram_markdown`: the fuel is an artifact of the embedding, not a
behavioural bound. -/
theorem convert_fuel_adequate (f : Nat) (s : List Char) (hf : s.length ≤ f) :
    convertF f s = convert_telegram_markdown s :=
  convertF_fuel_eq f f s.length s hf hf (Nat.le_refl _)
